import Mathlib

/-!
Verification of the multi-document tree merge and resolution engine of the
BidSmart repository: a shallow embedding of the `DocumentSet` data model
(`bid_agents/models/document_set.py`), the `TreeMerger` / `NodeResolver`
services (`bid_agents/services/document_set_merger.py`) and the
cross-document query tools (`bid_agents/tools/document_set_query.py`,
`bid_agents/tools/document_set_tools.py`), together with proofs of the
behavioural properties stated in the design document.

Python dictionaries are modelled as association lists where an insert
replaces the binding in place if the key is present and appends it
otherwise; this reproduces both lookup semantics (a later insert for the
same key overwrites the earlier one) and insertion-ordered iteration.
Python `None` becomes `Option`, exceptions at the Q&A boundary become
`Except`, and `int` becomes `Int`.
-/

/-- Python-dict insert: replace the existing binding for `k` in place,
or append a fresh binding at the end. -/
def dinsert {α : Type} (k : String) (v : α) : List (String × α) → List (String × α)
  | [] => [(k, v)]
  | (k', v') :: rest => if k' = k then (k, v) :: rest else (k', v') :: dinsert k v rest

/- A parsed document-tree node: `{id, title, summary, ps, pe, line_start,
children}` as produced by `_process_tree_node` and consumed throughout the
merger (the page range `ps`/`pe` and `line_start` may be absent). Children
are a mutually inductive list so that structural recursion and induction
over trees are available. -/
mutual
inductive Node where
  | mk (id title : String) (summary : Option String) (ps pe line_start : Option Int)
      (children : NodeList) : Node
deriving DecidableEq, Repr
inductive NodeList where
  | nil : NodeList
  | cons (hd : Node) (tl : NodeList) : NodeList
deriving DecidableEq, Repr
end

def Node.id : Node → String
  | .mk i _ _ _ _ _ _ => i

def Node.title : Node → String
  | .mk _ t _ _ _ _ _ => t

def Node.summary : Node → Option String
  | .mk _ _ s _ _ _ _ => s

def Node.ps : Node → Option Int
  | .mk _ _ _ p _ _ _ => p

def Node.pe : Node → Option Int
  | .mk _ _ _ _ p _ _ => p

def Node.line_start : Node → Option Int
  | .mk _ _ _ _ _ l _ => l

def Node.children : Node → NodeList
  | .mk _ _ _ _ _ _ cs => cs

/-- Replace a node's title (models `node["title"] = ...`). -/
def Node.withTitle : Node → String → Node
  | .mk i _ s ps pe ls cs, t' => .mk i t' s ps pe ls cs

def NodeList.append : NodeList → NodeList → NodeList
  | .nil, ys => ys
  | .cons x xs, ys => .cons x (xs.append ys)

def NodeList.toList : NodeList → List Node
  | .nil => []
  | .cons x xs => x :: xs.toList

def NodeList.ofList : List Node → NodeList
  | [] => .nil
  | x :: xs => .cons x (NodeList.ofList xs)

def NodeList.length : NodeList → Nat
  | .nil => 0
  | .cons _ xs => xs.length + 1

/-- Model of `DocumentSetItem` from `bid_agents/models/document_set.py`: one document
inside a set. `doc_type` and `role` are open string enums, exactly as the
source compares them. `metadata` is an opaque string map; `tree` is absent
until a refresh populates it. -/
structure DocumentSetItem where
  document_id : String
  name : String
  doc_type : String
  role : String
  order : Int
  metadata : List (String × String)
  tree : Option Node
deriving DecidableEq, Repr

/-- Model of `DocumentSet` from `bid_agents/models/document_set.py`. -/
structure DocumentSet where
  id : String
  name : String
  description : String
  items : List DocumentSetItem
  created_at : Int
  updated_at : Int
  project_id : Option String
deriving DecidableEq, Repr

/-- Source `DocumentSetItem.is_primary`. -/
def DocumentSetItem.is_primary (it : DocumentSetItem) : Bool :=
  it.role == "primary"

/-- Source `DocumentSet.get_primary_item`: the first item whose role is
`"primary"`, else the first item of the list, else `None`. -/
def DocumentSet.get_primary_item (ds : DocumentSet) : Option DocumentSetItem :=
  match ds.items.find? (fun it => it.is_primary) with
  | some it => some it
  | none => ds.items.head?

/-- Source `DocumentSet.get_item_by_doc_id`. -/
def DocumentSet.get_item_by_doc_id (ds : DocumentSet) (documentId : String) :
    Option DocumentSetItem :=
  ds.items.find? (fun it => it.document_id == documentId)

/-- Source `DocumentSet.get_items_by_type`. -/
def DocumentSet.get_items_by_type (ds : DocumentSet) (docType : String) :
    List DocumentSetItem :=
  ds.items.filter (fun it => it.doc_type == docType)

/-- Source `DocumentSet.get_items_by_role`. -/
def DocumentSet.get_items_by_role (ds : DocumentSet) (role : String) :
    List DocumentSetItem :=
  ds.items.filter (fun it => it.role == role)

/-- The comparison `key=lambda x: x.order` of `get_sorted_items` and
`add_item`. -/
def orderLe (a b : DocumentSetItem) : Prop :=
  a.order ≤ b.order

instance : DecidableRel orderLe :=
  fun a b => Int.decLe a.order b.order

instance : IsTotal DocumentSetItem orderLe :=
  ⟨fun a b => Int.le_total a.order b.order⟩

instance : IsTrans DocumentSetItem orderLe :=
  ⟨fun _ _ _ h1 h2 => le_trans h1 h2⟩

/-- Source `DocumentSet.get_sorted_items`: `sorted(self.items, key=lambda x: x.order)`.
Python `sorted` is stable, and a stable sort's output is uniquely determined
by the input order and the key, so the stable structural `insertionSort` is
an exact model of it. -/
def DocumentSet.get_sorted_items (ds : DocumentSet) : List DocumentSetItem :=
  ds.items.insertionSort orderLe

/-- Source `DocumentSet.get_all_document_ids`. -/
def DocumentSet.get_all_document_ids (ds : DocumentSet) : List String :=
  ds.items.map (fun it => it.document_id)

/-- The `while item.order in existing_orders: item.order += 1` loop of
`DocumentSet.add_item`, with explicit fuel: each iteration that finds `o`
taken erases that one occurrence and tries `o + 1`, which never retests the
erased value, so `taken.length + 1` iterations always reach a free value and
the fuel never runs out. -/
def findFreeOrderAux : Nat → List Int → Int → Int
  | 0, _, o => o
  | fuel + 1, taken, o => if o ∈ taken then findFreeOrderAux fuel (taken.erase o) (o + 1) else o

/-- The smallest value `≥ o` not occurring in `taken`: the order finally
held by the item that `DocumentSet.add_item` appends. -/
def findFreeOrder (taken : List Int) (o : Int) : Int :=
  findFreeOrderAux (taken.length + 1) taken o

/-- Source `DocumentSet.add_item`: bump the new item's order to a free slot, append
it, and re-sort the items by order. -/
def DocumentSet.add_item (ds : DocumentSet) (item : DocumentSetItem) : DocumentSet :=
  let item' := { item with order := findFreeOrder (ds.items.map (fun i => i.order)) item.order }
  let sorted := (ds.items ++ [item']).insertionSort orderLe
  { ds with items := sorted }

/-- The demotion loop of `set_primary_document` in
`bid_agents/tools/document_set_tools.py`: every item currently holding
role `"primary"` becomes `"auxiliary"`. -/
def demotePrimaries (items : List DocumentSetItem) : List DocumentSetItem :=
  items.map (fun it => if it.role == "primary" then { it with role := "auxiliary" } else it)

/-- The promotion step of `set_primary_document`: the first item whose
`document_id` matches is given role `"primary"` and order `0` (the source
mutates the single object returned by `get_item_by_doc_id`). -/
def promoteFirst (documentId : String) : List DocumentSetItem → List DocumentSetItem
  | [] => []
  | it :: rest =>
      if it.document_id == documentId then
        { it with role := "primary", order := 0 } :: rest
      else
        it :: promoteFirst documentId rest

/-- The sort key of `set_primary_document`'s final re-sort:
`(0 if primary else 1, order)`. -/
def primaryKey (it : DocumentSetItem) : Int :=
  if it.role == "primary" then 0 else 1

/-- Lexicographic comparison on `(primaryKey, order)`, the key of
`set_primary_document`'s re-sort. -/
def primaryLe (a b : DocumentSetItem) : Prop :=
  primaryKey a < primaryKey b ∨ (primaryKey a = primaryKey b ∧ a.order ≤ b.order)

instance : DecidableRel primaryLe :=
  fun a b =>
    decidable_of_iff (primaryKey a < primaryKey b ∨ (primaryKey a = primaryKey b ∧ a.order ≤ b.order))
      Iff.rfl

instance : IsTotal DocumentSetItem primaryLe := by
  constructor
  intro a b
  unfold primaryLe
  rcases lt_trichotomy (primaryKey a) (primaryKey b) with h | h | h
  · exact Or.inl (Or.inl h)
  · rcases Int.le_total a.order b.order with h2 | h2
    · exact Or.inl (Or.inr ⟨h, h2⟩)
    · exact Or.inr (Or.inr ⟨h.symm, h2⟩)
  · exact Or.inr (Or.inl h)

instance : IsTrans DocumentSetItem primaryLe := by
  constructor
  intro a b c h1 h2
  unfold primaryLe at h1 h2 ⊢
  rcases h1 with h1 | ⟨h1e, h1o⟩ <;> rcases h2 with h2 | ⟨h2e, h2o⟩
  · exact Or.inl (lt_trans h1 h2)
  · exact Or.inl (h2e ▸ h1)
  · exact Or.inl (h1e ▸ h2)
  · exact Or.inr ⟨h1e.trans h2e, le_trans h1o h2o⟩

/-- Source `set_primary_document` from `bid_agents/tools/document_set_tools.py`,
restricted to its effect on the `DocumentSet` (the returned message is not
modelled). When the document id is absent the set is returned unchanged
(the source returns an error string and touches nothing). -/
def set_primary_document (ds : DocumentSet) (documentId : String) : DocumentSet :=
  match ds.get_item_by_doc_id documentId with
  | none => ds
  | some _ =>
      let items' := promoteFirst documentId (demotePrimaries ds.items)
      { ds with items := items'.insertionSort primaryLe }

/-! ## TreeMerger (`bid_agents/services/document_set_merger.py`)

`TreeMerger` carries one piece of mutable state, `self._node_to_doc_map`
(node id → document id), written while trees are processed. The merge
functions below thread that map explicitly, so `TreeMerger.merge` becomes
`TreeMerger_merge : DocumentSet → NodeDocMap → Node × NodeDocMap`. -/

/-- The `_node_to_doc_map` dictionary of a `TreeMerger` instance. -/
def NodeDocMap := List (String × String)

/- `TreeMerger._process_tree_node`: rebuild a node, keeping the original id
for the primary document and rewriting it to `doc_{doc_id}_{original_id}`
otherwise, recording `new_id -> doc_id` for every node with a non-empty id,
and recursing into the children in order. -/
mutual
def processTreeNode (docId : String) (isPrimary : Bool) (n : Node) (m : NodeDocMap) :
    Node × NodeDocMap :=
  match n with
  | .mk i t s ps pe ls cs =>
      let newId := if isPrimary then i else "doc_" ++ docId ++ "_" ++ i
      let m1 := if i = "" then m else dinsert newId docId m
      let r := processChildren docId isPrimary cs m1
      (.mk newId t s ps pe ls r.1, r.2)
def processChildren (docId : String) (isPrimary : Bool) (cs : NodeList) (m : NodeDocMap) :
    NodeList × NodeDocMap :=
  match cs with
  | .nil => (.nil, m)
  | .cons c rest =>
      let r1 := processTreeNode docId isPrimary c m
      let r2 := processChildren docId isPrimary rest r1.2
      (.cons r1.1 r2.1, r2.2)
end

/-- The auxiliary loop of `TreeMerger.merge`: process each auxiliary item
that has a populated tree, prefix the processed root's title with
`[{item name}] `, and collect the results in order. -/
def auxChildren (auxs : List DocumentSetItem) (m : NodeDocMap) : NodeList × NodeDocMap :=
  match auxs with
  | [] => (.nil, m)
  | a :: rest =>
      match a.tree with
      | none => auxChildren rest m
      | some t =>
          let r1 := processTreeNode a.document_id false t m
          let r2 := auxChildren rest r1.2
          (.cons (r1.1.withTitle ("[" ++ a.name ++ "] " ++ r1.1.title)) r2.1, r2.2)

/-- The loop of `TreeMerger._create_flat_structure`: one namespaced,
title-prefixed subtree per sorted item with a populated tree. -/
def flatChildren (items : List DocumentSetItem) (m : NodeDocMap) : NodeList × NodeDocMap :=
  match items with
  | [] => (.nil, m)
  | it :: rest =>
      match it.tree with
      | none => flatChildren rest m
      | some t =>
          let r1 := processTreeNode it.document_id false t m
          let r2 := flatChildren rest r1.2
          (.cons (r1.1.withTitle ("[" ++ it.name ++ "] " ++ r1.1.title)) r2.1, r2.2)

/-- Source `TreeMerger._create_flat_structure`: a synthetic root over the sorted
items' namespaced subtrees (used when there is no primary item with a
populated tree). -/
def createFlatStructure (ds : DocumentSet) (m : NodeDocMap) : Node × NodeDocMap :=
  let r := flatChildren ds.get_sorted_items m
  (.mk "root" ds.name (some ("文档集包含" ++ toString r.1.length ++ "个文档")) none none none r.1, r.2)

/-- The synthetic `auxiliary_docs` branch node of `TreeMerger.merge`, with
the children it ends up holding. -/
def auxBranchNode (auxCount : Nat) (cs : NodeList) : Node :=
  .mk "auxiliary_docs" "辅助文档" (some ("共" ++ toString auxCount ++ "个辅助文档")) none none none cs

/-- Append one extra child after a node's own children
(`merged_root["children"].append(aux_branch)`). -/
def Node.appendChild (n : Node) (c : Node) : Node :=
  match n with
  | .mk i t s ps pe ls cs => .mk i t s ps pe ls (cs.append (.cons c .nil))

/-- Source `TreeMerger.merge`: the primary item's tree processed with its ids kept,
plus — when some auxiliary-role item has a populated tree — one
`auxiliary_docs` branch appended after the root's own children; flat
fallback when there is no primary item with a populated tree. -/
def TreeMerger_merge (ds : DocumentSet) (m : NodeDocMap) : Node × NodeDocMap :=
  match ds.get_primary_item with
  | none => createFlatStructure ds m
  | some p =>
      match p.tree with
      | none => createFlatStructure ds m
      | some pt =>
          let r1 := processTreeNode p.document_id true pt m
          let auxs := ds.get_items_by_role "auxiliary"
          if auxs.isEmpty then r1
          else
            let r2 := auxChildren auxs r1.2
            match r2.1 with
            | .nil => (r1.1, r2.2)
            | .cons c cs => (r1.1.appendChild (auxBranchNode auxs.length (.cons c cs)), r2.2)

/-! ## NodeResolver (`bid_agents/services/document_set_merger.py`) -/

/-- The `_node_index` dictionary of a `NodeResolver`: node id →
`(document_id, node)`. -/
def NodeIndex := List (String × (String × Node))

/- `NodeResolver._index_tree`: record each node with a non-empty id under
its own document-local identifier, then recurse into the children. -/
mutual
def indexTree (docId : String) (n : Node) (ix : NodeIndex) : NodeIndex :=
  match n with
  | .mk i _ _ _ _ _ cs =>
      let ix1 := if i = "" then ix else dinsert i (docId, n) ix
      indexTreeList docId cs ix1
def indexTreeList (docId : String) (cs : NodeList) (ix : NodeIndex) : NodeIndex :=
  match cs with
  | .nil => ix
  | .cons c rest => indexTreeList docId rest (indexTree docId c ix)
end

/-- Source `NodeResolver._build_index`: walk every item's tree (if present) in set
order. -/
def buildIndex (ds : DocumentSet) : NodeIndex :=
  ds.items.foldl
    (fun ix it => match it.tree with
      | some t => indexTree it.document_id t ix
      | none => ix)
    []

/- The `(id, (document_id, node))` entries each tree contributes to the
index, in the order `_index_tree` records them (pre-order, parent first). -/
mutual
def entriesOfNode (docId : String) (n : Node) : List (String × (String × Node)) :=
  match n with
  | .mk i _ _ _ _ _ cs =>
      (if i = "" then [] else [(i, (docId, n))]) ++ entriesOfList docId cs
def entriesOfList (docId : String) (cs : NodeList) : List (String × (String × Node)) :=
  match cs with
  | .nil => []
  | .cons c rest => entriesOfNode docId c ++ entriesOfList docId rest
end

/-- All entries recorded by `NodeResolver._build_index`, in insertion
order across the items of the set. -/
def allEntries (ds : DocumentSet) : List (String × (String × Node)) :=
  ds.items.foldl
    (fun acc it => acc ++ match it.tree with
      | some t => entriesOfNode it.document_id t
      | none => [])
    []

/-- Split a character list at the first `'_'`, if any (one step of Python's
`str.split("_", maxsplit)`). -/
def splitFirstUnderscore : List Char → Option (List Char × List Char)
  | [] => none
  | c :: rest =>
      if c = '_' then some ([], rest)
      else (splitFirstUnderscore rest).map (fun p => (c :: p.1, p.2))

/-- Python `node_id.split("_", 2)`: at most two splits, so at most three
parts, the last keeping any remaining underscores. -/
def pySplitUnderscore2 (s : List Char) : List (List Char) :=
  match splitFirstUnderscore s with
  | none => [s]
  | some (a, r) =>
      match splitFirstUnderscore r with
      | none => [a, r]
      | some (b, r2) => [a, b, r2]

/-- Python `node_id.startswith("doc_")`. -/
def startsWithDoc : List Char → Bool
  | 'd' :: 'o' :: 'c' :: '_' :: _ => true
  | _ => false

/-- Source `NodeResolver.resolve_node`: exact index lookup first; otherwise, for an
id of the `doc_{document_id}_{original_id}` shape, extract the two parts,
look up the original id, and accept only if the recorded document id matches
the extracted one. -/
def resolve_node (ix : NodeIndex) (nodeId : String) : Option (String × Node) :=
  match List.lookup nodeId ix with
  | some r => some r
  | none =>
      if startsWithDoc nodeId.data then
        match pySplitUnderscore2 nodeId.data with
        | [_, d, o] =>
            match List.lookup (String.mk o) ix with
            | some (foundDocId, n) =>
                if foundDocId = String.mk d then some (String.mk d, n) else none
            | none => none
        | _ => none
      else none

/-- Python `s.lower()` (ASCII case folding, which is all the source's inputs use). -/
def lowerStr (s : String) : String :=
  String.mk (s.data.map Char.toLower)

/-- Tests whether `pat` occurs at the start of `hay`. -/
def leadsWith : List Char → List Char → Bool
  | _, [] => true
  | [], _ :: _ => false
  | h :: hs, p :: ps => h = p && leadsWith hs ps

/-- Python's substring test `pat in hay` over characters. -/
def containsSub (pat : List Char) : List Char → Bool
  | [] => leadsWith [] pat
  | h :: t => leadsWith (h :: t) pat || containsSub pat t

/-- Source `NodeResolver.find_nodes_by_title`: case-insensitive substring match of
the query against every indexed node's title, in index iteration order. -/
def find_nodes_by_title (ix : NodeIndex) (title : String) : List (String × Node) :=
  ix.filterMap
    (fun p => if containsSub (lowerStr title).data (lowerStr p.2.2.title).data
              then some p.2 else none)

/-- Source `NodeResolver.get_document_nodes`: linear filter of the index values by
stored document id. -/
def get_document_nodes (ix : NodeIndex) (docId : String) : List Node :=
  ix.filterMap (fun p => if p.2.1 = docId then some p.2.2 else none)

/-! ## Cross-document query router (`bid_agents/tools/document_set_query.py`) -/

/-- One response of the external Q&A endpoint, as consumed by
`query_document_set`: `response.get("answer", ...)` may be absent, and each
source's `s.get("title", "")` may be absent, so both are `Option`s. The
endpoint itself is a parameter `resp`; a raised exception is `Except.error`
with the rendered message. -/
structure QAResponse where
  answer : Option String
  sources : List (Option String)
deriving DecidableEq, Repr

/-- Scope resolution of `query_document_set`: `"primary"` → the primary
item if any; `"auxiliary"` → all auxiliary-role items; a known document id →
that item; anything else (including `"all"`) → every item sorted by order. -/
def documentsToQuery (ds : DocumentSet) (scope : String) : List DocumentSetItem :=
  if scope = "primary" then ds.get_primary_item.toList
  else if scope = "auxiliary" then ds.get_items_by_role "auxiliary"
  else if scope ∈ ds.get_all_document_ids then (ds.get_item_by_doc_id scope).toList
  else ds.get_sorted_items

/-- The `来源:` suffix: up to three cited source titles, comma-joined. -/
def renderSources (sources : List (Option String)) : String :=
  "\n  来源: " ++ String.intercalate ", " ((sources.take 3).map (fun t => t.getD ""))

/-- The loop body of `query_document_set`: a failing item renders as an
inline `[name] 查询失败: e` line; a succeeding item renders its answer,
prefixed with the item's name when more than one document is queried, plus
the sources suffix when sources are present. -/
def renderItemResult (multi : Bool) (it : DocumentSetItem) (r : Except String QAResponse) :
    String :=
  match r with
  | .error e => "[" ++ it.name ++ "] 查询失败: " ++ e
  | .ok resp =>
      let answer := resp.answer.getD "未找到相关内容"
      let px := if multi then "[" ++ it.name ++ "] " else ""
      if resp.sources.isEmpty then px ++ answer else px ++ answer ++ renderSources resp.sources

/-- The `results` list accumulated by `query_document_set` over the target
items. -/
def queryResults (resp : DocumentSetItem → Except String QAResponse)
    (l : List DocumentSetItem) : List String :=
  l.map (fun it => renderItemResult (decide (1 < l.length)) it (resp it))

/-- The header line block of `query_document_set`'s aggregated output. -/
def queryHeader (query nodeIds : String) (n : Nat) : String :=
  let h := "📚 在 " ++ toString n ++ " 个文档中查询: " ++ query ++ "\n"
  let h := if nodeIds = "" then h else h ++ "限定节点: " ++ nodeIds ++ "\n"
  h ++ String.mk (List.replicate 60 '=') ++ "\n\n"

/-- Source `query_document_set` on a state that has a document set: resolve the
scope, query every target item through `resp`, and aggregate all segments
(the single-document fallback path for a state without a set is outside
this model). -/
def query_document_set (ds : DocumentSet) (query scope nodeIds : String)
    (resp : DocumentSetItem → Except String QAResponse) : String :=
  let l := documentsToQuery ds scope
  if l.isEmpty then "错误：没有找到可查询的文档"
  else queryHeader query nodeIds l.length ++ String.intercalate "\n\n" (queryResults resp l)

/-- The `doc_types` filter of `find_across_documents`:
`{t.strip() for t in doc_types.split(",")}` membership. Python `str.strip`
removes surrounding whitespace. -/
def stripStr (s : String) : String :=
  String.mk (((s.data.dropWhile Char.isWhitespace).reverse.dropWhile Char.isWhitespace).reverse)

/-- Python `s.split(",")` (no maxsplit). -/
def splitComma : List Char → List (List Char)
  | [] => [[]]
  | c :: rest =>
      match splitComma rest with
      | [] => [[c]]
      | g :: gs => if c = ',' then [] :: g :: gs else (c :: g) :: gs

/-- The allowed doc types of `find_across_documents`. -/
def allowedTypes (docTypes : String) : List String :=
  (splitComma docTypes.data).map (fun g => stripStr (String.mk g))

/-- The `by_document` grouping dictionary of `find_across_documents`:
append the node to the list stored under the display name, creating the
group on first use (Python dict insertion order). -/
def groupAdd (k : String) (n : Node) : List (String × List Node) → List (String × List Node)
  | [] => [(k, [n])]
  | (k', ns) :: rest =>
      if k' = k then (k', ns ++ [n]) :: rest else (k', ns) :: groupAdd k n rest

/-- Source `find_across_documents`, modelled up to its `by_document` grouping
(`none` stands for the early error strings: empty keyword, or no item of the
requested types). Faithful to the source: the `doc_types` filter is applied
to `items` — which is then only used for the emptiness check — while the
`NodeResolver` that produces the title matches is built over the WHOLE
document set. -/
def find_across_documents (ds : DocumentSet) (keyword docTypes : String) :
    Option (List (String × List Node)) :=
  if keyword = "" then none
  else
    let items :=
      if docTypes = "" then ds.get_sorted_items
      else ds.get_sorted_items.filter (fun it => it.doc_type ∈ allowedTypes docTypes)
    if items.isEmpty then none
    else
      let matching := find_nodes_by_title (buildIndex ds) keyword
      some (matching.foldl
        (fun g p =>
          let docName := match ds.get_item_by_doc_id p.1 with
            | some it => it.name
            | none => p.1
          groupAdd docName p.2 g)
        [])

/-- The per-document node lists compared by `compare_documents`: the
document's indexed nodes, filtered by the case-insensitive title pattern
when one is given. -/
def compareNodes (ds : DocumentSet) (docId sectionPattern : String) : List Node :=
  let ns := get_document_nodes (buildIndex ds) docId
  if sectionPattern = "" then ns
  else ns.filter (fun n => containsSub (lowerStr sectionPattern).data (lowerStr n.title).data)

/-- The Python set `{n.get("title","").lower() for n in nodes}` of
`compare_documents`. -/
def compareTitles (ds : DocumentSet) (docId sectionPattern : String) : Finset String :=
  ((compareNodes ds docId sectionPattern).map (fun n => lowerStr n.title)).toFinset

/-- The set `common = titles1 & titles2` of `compare_documents`. -/
def commonTitles (ds : DocumentSet) (d1 d2 sectionPattern : String) : Finset String :=
  compareTitles ds d1 sectionPattern ∩ compareTitles ds d2 sectionPattern

/-- The set `only_in_1 = titles1 - titles2` of `compare_documents`. -/
def onlyInFirst (ds : DocumentSet) (d1 d2 sectionPattern : String) : Finset String :=
  compareTitles ds d1 sectionPattern \ compareTitles ds d2 sectionPattern

/-- The set `only_in_2 = titles2 - titles1` of `compare_documents`. -/
def onlyInSecond (ds : DocumentSet) (d1 d2 sectionPattern : String) : Finset String :=
  compareTitles ds d2 sectionPattern \ compareTitles ds d1 sectionPattern

/-- Python `sorted(...)` rendering of one result set of `compare_documents`. -/
def sortedTitles (s : Finset String) : List String :=
  s.sort (· ≤ ·)

/-! ## The tree produced by a merge, separated from the threaded map

The tree component of the merge does not read `_node_to_doc_map`; the
following pure functions compute it alone, and the `_fst` lemmas prove that
they agree with the state-threaded translation for every prior map state. -/

mutual
def pureProcessNode (docId : String) (isPrimary : Bool) : Node → Node
  | .mk i t s ps pe ls cs =>
      .mk (if isPrimary then i else "doc_" ++ docId ++ "_" ++ i) t s ps pe ls
        (pureProcessList docId isPrimary cs)
def pureProcessList (docId : String) (isPrimary : Bool) : NodeList → NodeList
  | .nil => .nil
  | .cons c rest => .cons (pureProcessNode docId isPrimary c) (pureProcessList docId isPrimary rest)
end

/-- The pure tree component of `auxChildren`. -/
def pureAuxChildren : List DocumentSetItem → NodeList
  | [] => .nil
  | a :: rest =>
      match a.tree with
      | none => pureAuxChildren rest
      | some t =>
          let n := pureProcessNode a.document_id false t
          .cons (n.withTitle ("[" ++ a.name ++ "] " ++ n.title)) (pureAuxChildren rest)

/-- The pure tree component of `flatChildren`. -/
def pureFlatChildren : List DocumentSetItem → NodeList
  | [] => .nil
  | it :: rest =>
      match it.tree with
      | none => pureFlatChildren rest
      | some t =>
          let n := pureProcessNode it.document_id false t
          .cons (n.withTitle ("[" ++ it.name ++ "] " ++ n.title)) (pureFlatChildren rest)

/-- The pure tree component of `createFlatStructure`. -/
def pureCreateFlat (ds : DocumentSet) : Node :=
  let cs := pureFlatChildren ds.get_sorted_items
  .mk "root" ds.name (some ("文档集包含" ++ toString cs.length ++ "个文档")) none none none cs

/-- The pure tree component of `TreeMerger.merge`. -/
def pureMerge (ds : DocumentSet) : Node :=
  match ds.get_primary_item with
  | none => pureCreateFlat ds
  | some p =>
      match p.tree with
      | none => pureCreateFlat ds
      | some pt =>
          let root := pureProcessNode p.document_id true pt
          let auxs := ds.get_items_by_role "auxiliary"
          if auxs.isEmpty then root
          else
            match pureAuxChildren auxs with
            | .nil => root
            | .cons c cs => root.appendChild (auxBranchNode auxs.length (.cons c cs))

/-! ## Spec-side description of the merged tree (for the refinement claim
about `TreeMerger.merge`) -/

/- Written from the specification's words: "node identifiers are rewritten
to `doc_{document_id}_{original_id}` (recursively, for every node in that
document, preserving title/summary/page/line fields and child order)". -/
mutual
def specRenameNode (documentId : String) : Node → Node
  | .mk i t s ps pe ls cs =>
      .mk ("doc_" ++ documentId ++ "_" ++ i) t s ps pe ls (specRenameList documentId cs)
def specRenameList (documentId : String) : NodeList → NodeList
  | .nil => .nil
  | .cons c rest => .cons (specRenameNode documentId c) (specRenameList documentId rest)
end

/-- From the specification's words: one rewritten subtree per auxiliary-role
item with a populated tree, in item order, the subtree root's title prefixed
with `[{item display name}] `. -/
def specAuxSubtrees (ds : DocumentSet) : List Node :=
  (ds.get_items_by_role "auxiliary").filterMap
    (fun a => a.tree.map
      (fun t =>
        let n := specRenameNode a.document_id t
        n.withTitle ("[" ++ a.name ++ "] " ++ n.title)))

/-- From the specification's words, amended as the code forces: when a
primary item with populated tree `pt` exists, the merged tree is `pt` with
all node identifiers unchanged, except that when at least one
auxiliary-role item has a populated tree, one extra `auxiliary_docs` child
is appended after the root's own children, holding one rewritten subtree
per auxiliary-role item with a populated tree (including the fallback
primary itself when its role is `auxiliary`). -/
def specMergedTree (ds : DocumentSet) (pt : Node) : Node :=
  if specAuxSubtrees ds = [] then pt
  else pt.appendChild
    (auxBranchNode (ds.get_items_by_role "auxiliary").length (NodeList.ofList (specAuxSubtrees ds)))

/-- From the claim as literally stated: the extra branch holds one subtree
per NON-primary auxiliary-role item with a populated tree, and is appended
whenever at least one auxiliary-role item has a populated tree. -/
def claimMergedTree (ds : DocumentSet) (p : DocumentSetItem) (pt : Node) : Node :=
  if ((ds.get_items_by_role "auxiliary").filter (fun a => a.tree.isSome)).isEmpty then pt
  else pt.appendChild
    (auxBranchNode (ds.get_items_by_role "auxiliary").length
      (NodeList.ofList
        (((ds.get_items_by_role "auxiliary").filter (fun a => decide (a ≠ p))).filterMap
          (fun a => a.tree.map
            (fun t =>
              let n := specRenameNode a.document_id t
              n.withTitle ("[" ++ a.name ++ "] " ++ n.title))))))

/-! ## Derived predicates and helper operations used by the statements -/

/-- First-some choice on options (Python's short-circuit over dict lookups). -/
def optOr {α : Type} : Option α → Option α → Option α
  | some x, _ => some x
  | none, b => b

/-- The order-uniqueness invariant of a `DocumentSet`. -/
def distinctOrders (ds : DocumentSet) : Prop :=
  (ds.items.map (fun it => it.order)).Nodup

instance (ds : DocumentSet) : Decidable (distinctOrders ds) :=
  inferInstanceAs (Decidable (List.Nodup _))

/-! ## Concrete instances used by the witnesses and counterexamples -/

/-- A single-node tree. -/
def leafNode (i t : String) : Node :=
  .mk i t none none none none .nil

/-- C1 counterexample data: one item whose role is `auxiliary`; with no
explicit primary it doubles as the fallback primary. -/
def c1tree : Node := leafNode "r" "正文"

def c1item : DocumentSetItem :=
  ⟨"d1", "附件一", "reference", "auxiliary", 0, [], some c1tree⟩

def c1ds : DocumentSet := ⟨"set1", "文档集一", "", [c1item], 0, 0, none⟩

/-- C1 witness data: the design document's own scenario — a primary tender
document and one auxiliary reference whose tree reuses the local id `c1`. -/
def c1wtreeP : Node :=
  .mk "root" "招标文件" none none none none
    (.cons (leafNode "c1" "第一章") (.cons (leafNode "c2" "第二章") .nil))

def c1wtreeA : Node := leafNode "c1" "参考条款"

def c1wP : DocumentSetItem := ⟨"tender-1", "招标文件", "tender", "primary", 0, [], some c1wtreeP⟩

def c1wA : DocumentSetItem := ⟨"ref-1", "名称", "reference", "auxiliary", 1, [], some c1wtreeA⟩

def c1wds : DocumentSet := ⟨"set2", "文档集二", "", [c1wP, c1wA], 0, 0, none⟩

/-- C2 counterexample data: a document whose id contains an underscore. -/
def c2tree : Node := leafNode "n1" "目录"

def c2item : DocumentSetItem := ⟨"a_b", "文档甲", "tender", "primary", 0, [], some c2tree⟩

def c2ds : DocumentSet := ⟨"set3", "文档集三", "", [c2item], 0, 0, none⟩

/-- C2 witness data: an underscore-free document id. -/
def c2wtree : Node := leafNode "r" "目录"

def c2witem : DocumentSetItem := ⟨"d1", "文档乙", "tender", "primary", 0, [], some c2wtree⟩

def c2wds : DocumentSet := ⟨"set4", "文档集四", "", [c2witem], 0, 0, none⟩

/-- C3 data: a historical item and a reference item, both with a node whose
title contains the keyword `资质`. -/
def c3histNode : Node := leafNode "hn" "资质历史"

def c3refNode : Node := leafNode "rn" "资质要求"

def c3hist : DocumentSetItem := ⟨"h1", "历史标书", "historical", "auxiliary", 0, [], some c3histNode⟩

def c3ref : DocumentSetItem := ⟨"r1", "参考文件", "reference", "auxiliary", 1, [], some c3refNode⟩

def c3ds : DocumentSet := ⟨"set5", "文档集五", "", [c3hist, c3ref], 0, 0, none⟩

/-- C4 counterexample data: two auxiliary items with orders 0 and 1; no item
holds role `primary`. -/
def c4A : DocumentSetItem := ⟨"a4", "甲册", "tender", "auxiliary", 0, [], none⟩

def c4B : DocumentSetItem := ⟨"b4", "乙册", "reference", "auxiliary", 1, [], none⟩

def c4ds : DocumentSet := ⟨"set6", "文档集六", "", [c4A, c4B], 0, 0, none⟩

/-- C4 witness data: the same two documents but with orders 1 and 2, so no
item other than the promoted one holds order 0. -/
def c4wA : DocumentSetItem := ⟨"a4", "甲册", "tender", "auxiliary", 1, [], none⟩

def c4wB : DocumentSetItem := ⟨"b4", "乙册", "reference", "auxiliary", 2, [], none⟩

def c4wds : DocumentSet := ⟨"set7", "文档集七", "", [c4wA, c4wB], 0, 0, none⟩

/-- C6 witness data: three items; the Q&A endpoint fails on the second. -/
def c6A : DocumentSetItem := ⟨"qa", "文档A", "tender", "primary", 0, [], none⟩

def c6B : DocumentSetItem := ⟨"qb", "文档B", "reference", "auxiliary", 1, [], none⟩

def c6C : DocumentSetItem := ⟨"qc", "文档C", "historical", "auxiliary", 2, [], none⟩

def c6ds : DocumentSet := ⟨"set8", "文档集八", "", [c6A, c6B, c6C], 0, 0, none⟩

/-- The endpoint behaviour of the partial-failure scenario: item `qb`
raises, the others answer. -/
def c6resp (it : DocumentSetItem) : Except String QAResponse :=
  if it.document_id = "qb" then .error "连接超时"
  else .ok ⟨some ("来自" ++ it.name ++ "的答案"), [some (it.name ++ "第一章")]⟩

/-- C8 counterexample data: no primary, and the positionally first item has
the larger order. -/
def c8B : DocumentSetItem := ⟨"b8", "乙卷", "tender", "auxiliary", 2, [], none⟩

def c8A : DocumentSetItem := ⟨"a8", "甲卷", "tender", "auxiliary", 1, [], none⟩

def c8ds : DocumentSet := ⟨"set9", "文档集九", "", [c8B, c8A], 0, 0, none⟩

/-- C8 witness data: the same items stored sorted by order. -/
def c8wds : DocumentSet := ⟨"set10", "文档集十", "", [c8A, c8B], 0, 0, none⟩

/-- C10 witness data. -/
def c10item : DocumentSetItem := ⟨"c10", "丙册", "template", "auxiliary", 0, [], none⟩

def c10ds : DocumentSet := ⟨"set11", "文档集十一", "", [c4A, c4B], 0, 0, none⟩

/-! ## The state-threaded merge agrees with its pure tree projection -/

mutual
theorem processTreeNode_fst (docId : String) (isPrimary : Bool) (n : Node) (m : NodeDocMap) :
    (processTreeNode docId isPrimary n m).1 = pureProcessNode docId isPrimary n := by
  cases n with
  | mk i t s ps pe ls cs =>
      simp [processTreeNode, pureProcessNode, processChildren_fst docId isPrimary cs]
theorem processChildren_fst (docId : String) (isPrimary : Bool) (cs : NodeList) (m : NodeDocMap) :
    (processChildren docId isPrimary cs m).1 = pureProcessList docId isPrimary cs := by
  cases cs with
  | nil => rfl
  | cons c rest =>
      simp [processChildren, pureProcessList, processTreeNode_fst docId isPrimary c,
        processChildren_fst docId isPrimary rest]
end

theorem auxChildren_fst (auxs : List DocumentSetItem) (m : NodeDocMap) :
    (auxChildren auxs m).1 = pureAuxChildren auxs := by
  induction auxs generalizing m with
  | nil => rfl
  | cons a rest ih =>
      cases ht : a.tree with
      | none => simp [auxChildren, pureAuxChildren, ht, ih]
      | some t => simp [auxChildren, pureAuxChildren, ht, ih, processTreeNode_fst]

theorem flatChildren_fst (items : List DocumentSetItem) (m : NodeDocMap) :
    (flatChildren items m).1 = pureFlatChildren items := by
  induction items generalizing m with
  | nil => rfl
  | cons it rest ih =>
      cases ht : it.tree with
      | none => simp [flatChildren, pureFlatChildren, ht, ih]
      | some t => simp [flatChildren, pureFlatChildren, ht, ih, processTreeNode_fst]

theorem createFlatStructure_fst (ds : DocumentSet) (m : NodeDocMap) :
    (createFlatStructure ds m).1 = pureCreateFlat ds := by
  simp [createFlatStructure, pureCreateFlat, flatChildren_fst]

theorem TreeMerger_merge_fst (ds : DocumentSet) (m : NodeDocMap) :
    (TreeMerger_merge ds m).1 = pureMerge ds := by
  cases hp : ds.get_primary_item with
  | none => simp [TreeMerger_merge, pureMerge, hp, createFlatStructure_fst]
  | some p =>
      cases ht : p.tree with
      | none => simp [TreeMerger_merge, pureMerge, hp, ht, createFlatStructure_fst]
      | some pt =>
          by_cases he : (ds.get_items_by_role "auxiliary").isEmpty
          · simp [TreeMerger_merge, pureMerge, hp, ht, he, processTreeNode_fst]
          · simp only [TreeMerger_merge, pureMerge, hp, ht, if_neg he]
            rw [auxChildren_fst]
            cases hac : pureAuxChildren (ds.get_items_by_role "auxiliary") with
            | nil => simp [processTreeNode_fst]
            | cons c cs => simp [processTreeNode_fst]

mutual
theorem pureProcessNode_primary (docId : String) (n : Node) :
    pureProcessNode docId true n = n := by
  cases n with
  | mk i t s ps pe ls cs =>
      simp [pureProcessNode, pureProcessList_primary docId cs]
theorem pureProcessList_primary (docId : String) (cs : NodeList) :
    pureProcessList docId true cs = cs := by
  cases cs with
  | nil => rfl
  | cons c rest =>
      simp [pureProcessList, pureProcessNode_primary docId c, pureProcessList_primary docId rest]
end

mutual
theorem pureProcessNode_aux (docId : String) (n : Node) :
    pureProcessNode docId false n = specRenameNode docId n := by
  cases n with
  | mk i t s ps pe ls cs =>
      simp [pureProcessNode, specRenameNode, pureProcessList_aux docId cs]
theorem pureProcessList_aux (docId : String) (cs : NodeList) :
    pureProcessList docId false cs = specRenameList docId cs := by
  cases cs with
  | nil => rfl
  | cons c rest =>
      simp [pureProcessList, specRenameList, pureProcessNode_aux docId c,
        pureProcessList_aux docId rest]
end

theorem pureAuxChildren_eq_spec (auxs : List DocumentSetItem) :
    pureAuxChildren auxs = NodeList.ofList (auxs.filterMap
      (fun a => a.tree.map
        (fun t =>
          let n := specRenameNode a.document_id t
          n.withTitle ("[" ++ a.name ++ "] " ++ n.title)))) := by
  induction auxs with
  | nil => rfl
  | cons a rest ih =>
      cases ht : a.tree with
      | none => simp [pureAuxChildren, ht, ih]
      | some t => simp [pureAuxChildren, ht, ih, NodeList.ofList, pureProcessNode_aux]

/-! ## Dictionary lemmas and the index-construction theorems -/

theorem optOr_none {α : Type} (b : Option α) : optOr none b = b := rfl

theorem optOr_some {α : Type} (x : α) (b : Option α) : optOr (some x) b = some x := rfl

theorem optOr_assoc {α : Type} (a b c : Option α) :
    optOr (optOr a b) c = optOr a (optOr b c) := by
  cases a <;> rfl

theorem lookup_dinsert {α : Type} (k k' : String) (v : α) (m : List (String × α)) :
    List.lookup k (dinsert k' v m) = if k = k' then some v else List.lookup k m := by
  induction m with
  | nil =>
      by_cases h : k = k'
      · subst h
        simp [dinsert, List.lookup]
      · have hb : (k == k') = false := by simpa using h
        simp [dinsert, List.lookup, hb, h]
  | cons p rest ih =>
      obtain ⟨a, b⟩ := p
      by_cases h1 : a = k'
      · subst h1
        by_cases h2 : k = a
        · subst h2
          simp [dinsert, List.lookup]
        · have hb : (k == a) = false := by simpa using h2
          simp [dinsert, List.lookup, hb, h2]
      · by_cases h2 : k = a
        · subst h2
          have hne : ¬k = k' := h1
          simp [dinsert, if_neg h1, List.lookup, hne]
        · have hb : (k == a) = false := by simpa using h2
          simp [dinsert, if_neg h1, List.lookup, hb, ih]

theorem lookup_append {α : Type} (k : String) (xs ys : List (String × α)) :
    List.lookup k (xs ++ ys) = optOr (List.lookup k xs) (List.lookup k ys) := by
  induction xs with
  | nil => simp [List.lookup, optOr]
  | cons p rest ih =>
      obtain ⟨a, b⟩ := p
      by_cases h : k = a
      · subst h
        simp [List.lookup, optOr]
      · have hb : (k == a) = false := by simpa using h
        simp [List.lookup, hb, ih]

theorem foldl_dinsert_lookup {α : Type} (l : List (String × α)) (m0 : List (String × α))
    (k : String) :
    List.lookup k (l.foldl (fun m p => dinsert p.1 p.2 m) m0)
      = optOr (List.lookup k l.reverse) (List.lookup k m0) := by
  induction l generalizing m0 with
  | nil => simp [List.lookup, optOr]
  | cons p rest ih =>
      simp only [List.foldl_cons, List.reverse_cons]
      rw [ih, lookup_append, optOr_assoc, lookup_dinsert]
      obtain ⟨a, b⟩ := p
      by_cases h : k = a
      · subst h
        cases hr : List.lookup k rest.reverse <;> simp [List.lookup, optOr]
      · have hb : (k == a) = false := by simpa using h
        cases hr : List.lookup k rest.reverse <;> simp [List.lookup, optOr, hb, h]

mutual
theorem indexTree_eq (docId : String) (n : Node) (ix : NodeIndex) :
    indexTree docId n ix = (entriesOfNode docId n).foldl (fun m p => dinsert p.1 p.2 m) ix := by
  cases n with
  | mk i t s ps pe ls cs =>
      by_cases h : i = "" <;>
        simp [indexTree, entriesOfNode, h, List.foldl_append,
          indexTreeList_eq docId cs]
theorem indexTreeList_eq (docId : String) (cs : NodeList) (ix : NodeIndex) :
    indexTreeList docId cs ix
      = (entriesOfList docId cs).foldl (fun m p => dinsert p.1 p.2 m) ix := by
  cases cs with
  | nil => rfl
  | cons c rest =>
      simp [indexTreeList, entriesOfList, List.foldl_append, indexTree_eq docId c,
        indexTreeList_eq docId rest]
end

theorem entriesFold_acc (items : List DocumentSetItem)
    (acc : List (String × (String × Node))) :
    (items.foldl
      (fun acc it => acc ++ match it.tree with
        | some t => entriesOfNode it.document_id t
        | none => [])
      acc)
    = acc ++ (items.foldl
      (fun acc it => acc ++ match it.tree with
        | some t => entriesOfNode it.document_id t
        | none => [])
      []) := by
  induction items generalizing acc with
  | nil => simp
  | cons it rest ih =>
      simp only [List.foldl_cons]
      rw [ih, ih (List.nil ++ _), List.nil_append, List.append_assoc]

theorem buildFold_eq (items : List DocumentSetItem) (ix : NodeIndex) :
    (items.foldl
      (fun ix it => match it.tree with
        | some t => indexTree it.document_id t ix
        | none => ix)
      ix)
    = ((items.foldl
        (fun acc it => acc ++ match it.tree with
          | some t => entriesOfNode it.document_id t
          | none => [])
        []).foldl (fun m p => dinsert p.1 p.2 m) ix) := by
  induction items generalizing ix with
  | nil => rfl
  | cons it rest ih =>
      simp only [List.foldl_cons]
      rw [ih]
      have hacc := entriesFold_acc rest
        (([] : List (String × (String × Node))) ++ (match it.tree with
          | some t => entriesOfNode it.document_id t
          | none => []))
      rw [hacc, List.nil_append, List.foldl_append]
      congr 1
      cases ht : it.tree with
      | none => simp
      | some t => simp [indexTree_eq]

/-- C5: construction of the node index walks every item's tree in set order
and records each node under its document-local identifier; a lookup in the
finished index returns the LAST entry recorded for that identifier, so when
two documents reuse a local id, the later-indexed document silently
overwrites the earlier one. -/
theorem nodeResolver_lookup_last_write_wins (ds : DocumentSet) (i : String) :
    List.lookup i (buildIndex ds) = List.lookup i (allEntries ds).reverse := by
  have hb : buildIndex ds
      = (allEntries ds).foldl (fun m p => dinsert p.1 p.2 m) [] := by
    unfold buildIndex allEntries
    exact buildFold_eq ds.items []
  rw [hb, foldl_dinsert_lookup]
  cases h : List.lookup i (allEntries ds).reverse <;> simp [List.lookup, optOr]

/-! ## Claims about TreeMerger.merge -/

/-- C7: merging is pure and idempotent. The only mutable state a
`TreeMerger` carries is its `_node_to_doc_map`; the tree it returns is
independent of whatever that map already holds, so repeated `merge()` calls
on an unchanged `DocumentSet` — including a second call on the same merger,
whose map the first call extended — return structurally identical trees.
The `DocumentSet` itself is only read through its accessors and is never
written. -/
theorem treeMerger_merge_pure_idempotent (ds : DocumentSet) (m m' : NodeDocMap) :
    (TreeMerger_merge ds m).1 = (TreeMerger_merge ds m').1 := by
  rw [TreeMerger_merge_fst, TreeMerger_merge_fst]

/-- C1 (amended): when the primary item has a populated tree, `merge()`
returns that tree with all node identifiers unchanged, plus — exactly when
at least one auxiliary-role item has a populated tree — one extra
`auxiliary_docs` child appended after the root's own children, holding one
namespaced, title-prefixed subtree per auxiliary-role item with a populated
tree. (The claim's restriction to NON-primary auxiliary items is what the
counterexample refutes: the fallback primary, when its role is `auxiliary`,
is duplicated into the branch as well.) -/
theorem treeMerger_merge_amended (ds : DocumentSet) (p : DocumentSetItem) (pt : Node)
    (m : NodeDocMap) (hp : ds.get_primary_item = some p) (ht : p.tree = some pt) :
    (TreeMerger_merge ds m).1 = specMergedTree ds pt := by
  rw [TreeMerger_merge_fst]
  simp only [pureMerge, hp, ht]
  rw [pureProcessNode_primary]
  by_cases he : (ds.get_items_by_role "auxiliary").isEmpty
  · have hnil : ds.get_items_by_role "auxiliary" = [] := by
      simpa [List.isEmpty_iff] using he
    simp [he, specMergedTree, specAuxSubtrees, hnil]
  · simp only [if_neg he]
    have hps : pureAuxChildren (ds.get_items_by_role "auxiliary")
        = NodeList.ofList (specAuxSubtrees ds) := pureAuxChildren_eq_spec _
    rw [hps]
    cases hsa : specAuxSubtrees ds with
    | nil => simp [specMergedTree, hsa, NodeList.ofList]
    | cons x xs => simp [specMergedTree, hsa, NodeList.ofList]

/-- C1 witness: the design document's own scenario (primary `tender-1` with
chapters `c1`, `c2`; auxiliary `ref-1` whose tree reuses local id `c1`),
evaluated through the amended theorem. -/
theorem treeMerger_merge_amended_witness :
    (TreeMerger_merge c1wds ([] : NodeDocMap)).1 = specMergedTree c1wds c1wtreeP :=
  treeMerger_merge_amended c1wds c1wP c1wtreeP ([] : NodeDocMap) (by decide) (by decide)

/-- C1 counterexample: a set whose only item has role `auxiliary` and a
populated tree. It is the fallback primary, so by the claim as stated the
`auxiliary_docs` branch holds no subtree of a NON-primary auxiliary item,
yet the code duplicates the fallback primary's own tree into the branch. -/
theorem treeMerger_merge_claim_counterexample :
    c1ds.get_primary_item = some c1item ∧ c1item.tree = some c1tree ∧
      (TreeMerger_merge c1ds ([] : NodeDocMap)).1 ≠ claimMergedTree c1ds c1item c1tree :=
  ⟨by decide, by decide, by decide⟩

/-! ## Claims about get_primary_item and compare_documents -/

/-- C8 (amended): `get_primary_item` returns the first item whose role is
`primary` when one exists; with no such item it falls back to the
POSITIONALLY first item of the list (`self.items[0]`), which holds a
minimal order value exactly when the list is sorted by order (as the
mutating operations maintain); for the empty set it returns none. -/
theorem get_primary_item_amended (ds : DocumentSet) :
    (ds.items = [] → ds.get_primary_item = none)
    ∧ (∀ it, ds.items.find? (fun x => x.is_primary) = some it → ds.get_primary_item = some it)
    ∧ ((∀ it ∈ ds.items, it.role ≠ "primary") → ds.get_primary_item = ds.items.head?)
    ∧ ((∀ it ∈ ds.items, it.role ≠ "primary") → List.Pairwise orderLe ds.items →
        ∀ p, ds.get_primary_item = some p → ∀ it ∈ ds.items, p.order ≤ it.order) := by
  have hfind : (∀ it ∈ ds.items, it.role ≠ "primary") →
      ds.items.find? (fun x => x.is_primary) = none := by
    intro hnp
    apply List.find?_eq_none.mpr
    intro x hx
    simpa [DocumentSetItem.is_primary] using hnp x hx
  refine ⟨?_, ?_, ?_, ?_⟩
  · intro h
    simp [DocumentSet.get_primary_item, h]
  · intro it h
    simp [DocumentSet.get_primary_item, h]
  · intro hnp
    simp [DocumentSet.get_primary_item, hfind hnp]
  · intro hnp hsort p hp it hit
    have hp' : ds.items.head? = some p := by
      simpa [DocumentSet.get_primary_item, hfind hnp] using hp
    cases hitems : ds.items with
    | nil => simp [hitems] at hp'
    | cons a t =>
        rw [hitems] at hp' hsort hit
        have hap : a = p := by simpa using hp'
        subst hap
        rcases List.mem_cons.mp hit with hia | hia
        · exact le_of_eq (congrArg (fun x => x.order) hia.symm)
        · exact (List.pairwise_cons.mp hsort).1 it hia

/-- C8 counterexample: a set with no primary whose stored list is not
sorted by order — `get_primary_item` returns the positionally first item
(order 2) although another item holds the smaller order 1. -/
theorem get_primary_item_counterexample :
    (∀ it ∈ c8ds.items, it.role ≠ "primary")
    ∧ c8ds.get_primary_item = some c8B ∧ c8B.order = 2
    ∧ c8A ∈ c8ds.items ∧ c8A.order = 1 :=
  ⟨by decide, by decide, by decide, by decide, by decide⟩

/-- C8 witness: on a set stored sorted by order, the fallback returns the
first (minimal-order) item. -/
theorem get_primary_item_amended_witness :
    c8wds.get_primary_item = some c8A := by
  have h := (get_primary_item_amended c8wds).2.2.1 (by decide)
  simpa using h

/-- C9: `compare_documents` is a pure set comparison of the lower-cased
node titles of the two documents: the common set is symmetric in the two
arguments, the two difference sets swap, and the sorted renderings agree
accordingly. -/
theorem compare_documents_symmetric (ds : DocumentSet) (d1 d2 pat : String) :
    commonTitles ds d1 d2 pat = commonTitles ds d2 d1 pat
    ∧ onlyInFirst ds d1 d2 pat = onlyInSecond ds d2 d1 pat
    ∧ onlyInSecond ds d1 d2 pat = onlyInFirst ds d2 d1 pat
    ∧ sortedTitles (commonTitles ds d1 d2 pat) = sortedTitles (commonTitles ds d2 d1 pat)
    ∧ sortedTitles (onlyInFirst ds d1 d2 pat) = sortedTitles (onlyInSecond ds d2 d1 pat) := by
  have hc : commonTitles ds d1 d2 pat = commonTitles ds d2 d1 pat :=
    Finset.inter_comm _ _
  exact ⟨hc, rfl, rfl, by rw [hc], rfl⟩

/-! ## Claims about NodeResolver.resolve_node -/

theorem lookup_eq_none_of_no_key {α : Type} (k : String) (l : List (String × α))
    (h : ∀ e ∈ l, e.1 ≠ k) : List.lookup k l = none := by
  induction l with
  | nil => rfl
  | cons p rest ih =>
      have hne : p.1 ≠ k := h p (List.mem_cons_self p rest)
      have hb : (k == p.1) = false := by simpa using fun hh => hne hh.symm
      obtain ⟨a, b⟩ := p
      simp only [List.lookup, hb]
      exact ih (fun e he => h e (List.mem_cons_of_mem _ he))

theorem lookup_eq_some_of_unique {α : Type} [DecidableEq α] (k : String) (v : α)
    (l : List (String × α)) (hmem : (k, v) ∈ l)
    (huniq : ∀ e ∈ l, e.1 = k → e.2 = v) : List.lookup k l = some v := by
  induction l with
  | nil => cases hmem
  | cons p rest ih =>
      obtain ⟨a, b⟩ := p
      by_cases hk : k = a
      · subst hk
        have hv : b = v := huniq (k, b) (List.mem_cons_self _ _) rfl
        simp [List.lookup, hv]
      · have hb : (k == a) = false := by simpa using hk
        simp only [List.lookup, hb]
        rcases List.mem_cons.mp hmem with hh | hh
        · cases hh
          exact absurd rfl hk
        · exact ih hh (fun e he h1 => huniq e (List.mem_cons_of_mem _ he) h1)

theorem splitFirstUnderscore_append (d r : List Char) (h : ('_' : Char) ∉ d) :
    splitFirstUnderscore (d ++ '_' :: r) = some (d, r) := by
  induction d with
  | nil => simp [splitFirstUnderscore]
  | cons c cs ih =>
      have hc : ¬c = '_' := by
        intro hh
        exact h (hh ▸ List.mem_cons_self c cs)
      simp [splitFirstUnderscore, hc, ih (fun hm => h (List.mem_cons_of_mem c hm))]

/-- C2 (amended): an id produced by the namespacing scheme round-trips
through `resolve_node` provided additionally that the originating document
id contains no underscore (the parse `split("_", 2)` cannot recover it
otherwise), that the namespaced string is not itself a local id of any node
in the set (the exact-match step would shadow the parse), and that the
local id names a unique node across the set. -/
theorem resolve_node_roundtrip (ds : DocumentSet) (d i : String) (n : Node)
    (hu : ('_' : Char) ∉ d.data)
    (hmem : (i, (d, n)) ∈ allEntries ds)
    (huniq : ∀ e ∈ allEntries ds, e.1 = i → e.2 = (d, n))
    (hshadow : ∀ e ∈ allEntries ds, e.1 ≠ "doc_" ++ d ++ "_" ++ i) :
    resolve_node (buildIndex ds) ("doc_" ++ d ++ "_" ++ i) = some (d, n) := by
  have hnone : List.lookup ("doc_" ++ d ++ "_" ++ i) (buildIndex ds) = none := by
    rw [nodeResolver_lookup_last_write_wins]
    exact lookup_eq_none_of_no_key _ _ (fun e he => hshadow e (List.mem_reverse.mp he))
  have hsome : List.lookup i (buildIndex ds) = some (d, n) := by
    rw [nodeResolver_lookup_last_write_wins]
    exact lookup_eq_some_of_unique _ _ _ (List.mem_reverse.mpr hmem)
      (fun e he h1 => huniq e (List.mem_reverse.mp he) h1)
  have hdata : ("doc_" ++ d ++ "_" ++ i).data
      = 'd' :: 'o' :: 'c' :: '_' :: (d.data ++ '_' :: i.data) := by
    simp [String.data_append]
  have hstart : startsWithDoc ("doc_" ++ d ++ "_" ++ i).data = true := by
    rw [hdata]
    rfl
  have hsplit : pySplitUnderscore2 ("doc_" ++ d ++ "_" ++ i).data
      = ["doc".data, d.data, i.data] := by
    rw [hdata]
    have h0 : splitFirstUnderscore ('d' :: 'o' :: 'c' :: '_' :: (d.data ++ '_' :: i.data))
        = some (['d', 'o', 'c'], d.data ++ '_' :: i.data) := by
      simp [splitFirstUnderscore]
    simp [pySplitUnderscore2, h0, splitFirstUnderscore_append d.data i.data hu]
  have hmkd : String.mk d.data = d := by
    cases d
    rfl
  have hmki : String.mk i.data = i := by
    cases i
    rfl
  simp only [resolve_node, hnone, hstart, hsplit, if_true]
  rw [hmki, hsome, hmkd]
  simp

/-- C2 counterexample: document id `a_b` contains an underscore. For its
node `n1` the namespacing scheme produces `doc_a_b_n1`, the set contains no
other document at all (so no reuse of `n1`), yet `resolve_node` extracts
document id `a` and original id `b_n1` from the string and reports
not-found instead of round-tripping. -/
theorem resolve_node_counterexample :
    List.lookup "n1" (buildIndex c2ds) = some ("a_b", c2tree)
    ∧ resolve_node (buildIndex c2ds) ("doc_" ++ "a_b" ++ "_" ++ "n1") = none :=
  ⟨by decide, by decide⟩

/-- C2 witness: an underscore-free document id round-trips. -/
theorem resolve_node_roundtrip_witness :
    resolve_node (buildIndex c2wds) ("doc_" ++ "d1" ++ "_" ++ "r") = some ("d1", c2wtree) :=
  resolve_node_roundtrip c2wds "d1" "r" c2wtree (by decide) (by decide) (by decide) (by decide)

/-! ## Claims about the cross-document query router -/

/-- C3 (the code evaluated at the failing input): `find_across_documents`
computes the `doc_types`-filtered item list but uses it only for the
emptiness check; the `NodeResolver` it searches is built over the whole
set, so with `doc_types="reference,template"` the match from the
`historical` item is still returned, grouped under the historical item's
display name, ahead of the reference item's group. -/
theorem find_across_documents_ignores_filter :
    c3hist.doc_type = "historical"
    ∧ "historical" ∉ allowedTypes "reference,template"
    ∧ find_across_documents c3ds "资质" "reference,template"
        = some [("历史标书", [c3histNode]), ("参考文件", [c3refNode])] :=
  ⟨rfl, by decide, by decide⟩

/-- C6: once the scope resolves to `n ≥ 1` target items, the aggregated
output of `query_document_set` is the header plus exactly `n` segments in
item order; a failing item contributes its inline `[name] 查询失败: e`
line without suppressing any other segment, and a succeeding item
contributes its (name-prefixed when `n > 1`) answer plus the cited-source
suffix when sources are present. -/
theorem query_document_set_partial_failure
    (ds : DocumentSet) (query scope nodeIds : String)
    (resp : DocumentSetItem → Except String QAResponse)
    (l : List DocumentSetItem)
    (hl : documentsToQuery ds scope = l) (hne : l ≠ []) :
    query_document_set ds query scope nodeIds resp
      = queryHeader query nodeIds l.length ++ String.intercalate "\n\n" (queryResults resp l)
    ∧ (queryResults resp l).length = l.length
    ∧ (∀ (j : Nat) it e, l[j]? = some it → resp it = Except.error e →
        (queryResults resp l)[j]? = some ("[" ++ it.name ++ "] 查询失败: " ++ e))
    ∧ (∀ (j : Nat) it r, l[j]? = some it → resp it = Except.ok r →
        (queryResults resp l)[j]?
          = some (if r.sources.isEmpty
              then (if 1 < l.length then "[" ++ it.name ++ "] " else "")
                ++ r.answer.getD "未找到相关内容"
              else ((if 1 < l.length then "[" ++ it.name ++ "] " else "")
                ++ r.answer.getD "未找到相关内容") ++ renderSources r.sources)) := by
  refine ⟨?_, ?_, ?_, ?_⟩
  · have hni : l.isEmpty = false := by
      cases l with
      | nil => cases hne rfl
      | cons a t => rfl
    simp [query_document_set, hl, hni]
  · simp [queryResults]
  · intro j it e hj hresp
    simp [queryResults, List.getElem?_map, hj, renderItemResult, hresp]
  · intro j it r hj hresp
    simp only [queryResults, List.getElem?_map, hj, Option.map_some, renderItemResult, hresp]
    by_cases hs : r.sources = [] <;> by_cases hm : 1 < l.length <;>
      simp [hresp, hs, hm, List.isEmpty_iff]

/-! ## Claims about add_item and set_primary_document -/

theorem findFreeOrderAux_spec (fuel : Nat) :
    ∀ (taken : List Int) (o : Int), taken.length < fuel →
      (findFreeOrderAux fuel taken o ∉ taken
      ∧ o ≤ findFreeOrderAux fuel taken o
      ∧ ∀ k : Int, o ≤ k → k < findFreeOrderAux fuel taken o → k ∈ taken) := by
  induction fuel with
  | zero =>
      intro taken o h
      exact absurd h (Nat.not_lt_zero _)
  | succ fuel ih =>
      intro taken o h
      by_cases hm : o ∈ taken
      · have hpos : 0 < taken.length := List.length_pos.mpr (List.ne_nil_of_mem hm)
        have herase := List.length_erase_of_mem hm
        have hlen : (taken.erase o).length < fuel := by omega
        obtain ⟨h1, h2, h3⟩ := ih (taken.erase o) (o + 1) hlen
        simp only [findFreeOrderAux, if_pos hm]
        refine ⟨?_, by omega, ?_⟩
        · intro hmem
          have hne : findFreeOrderAux fuel (taken.erase o) (o + 1) ≠ o := by omega
          exact h1 ((List.mem_erase_of_ne hne).mpr hmem)
        · intro k hk1 hk2
          by_cases hko : k = o
          · subst hko
            exact hm
          · have hk1' : o + 1 ≤ k := by omega
            exact List.mem_of_mem_erase (h3 k hk1' hk2)
      · simp only [findFreeOrderAux, if_neg hm]
        exact ⟨hm, le_refl o, fun k hk1 hk2 => absurd (lt_of_le_of_lt hk1 hk2) (lt_irrefl o)⟩

theorem findFreeOrder_spec (taken : List Int) (o : Int) :
    findFreeOrder taken o ∉ taken
    ∧ o ≤ findFreeOrder taken o
    ∧ ∀ k : Int, o ≤ k → k < findFreeOrder taken o → k ∈ taken :=
  findFreeOrderAux_spec (taken.length + 1) taken o (Nat.lt_succ_self _)

theorem promoteFirst_order_mem (documentId : String) (l : List DocumentSetItem) :
    ∀ it ∈ promoteFirst documentId l, it.order = 0 ∨ it.order ∈ l.map (fun i => i.order) := by
  induction l with
  | nil =>
      intro it h
      cases h
  | cons a rest ih =>
      intro it h
      simp only [promoteFirst] at h
      by_cases hc : (a.document_id == documentId) = true
      · rw [if_pos hc] at h
        rcases List.mem_cons.mp h with h1 | h1
        · left
          rw [h1]
        · right
          exact List.mem_map.mpr ⟨it, List.mem_cons_of_mem _ h1, rfl⟩
      · rw [if_neg hc] at h
        rcases List.mem_cons.mp h with h1 | h1
        · right
          subst h1
          exact List.mem_map.mpr ⟨it, List.mem_cons_self _ _, rfl⟩
        · rcases ih it h1 with h2 | h2
          · exact Or.inl h2
          · right
            rcases List.mem_map.mp h2 with ⟨x, hx, hxo⟩
            exact List.mem_map.mpr ⟨x, List.mem_cons_of_mem _ hx, hxo⟩

theorem promoteFirst_nodup_orders (documentId : String) (l : List DocumentSetItem)
    (hnd : (l.map (fun it => it.order)).Nodup)
    (hids : (l.map (fun it => it.document_id)).Nodup)
    (hz : ∀ it ∈ l, it.document_id ≠ documentId → it.order ≠ 0) :
    ((promoteFirst documentId l).map (fun it => it.order)).Nodup := by
  induction l with
  | nil => simp [promoteFirst]
  | cons a rest ih =>
      simp only [promoteFirst]
      simp only [List.map_cons] at hnd hids
      obtain ⟨hnd1, hnd2⟩ := List.nodup_cons.mp hnd
      obtain ⟨hid1, hid2⟩ := List.nodup_cons.mp hids
      by_cases hc : (a.document_id == documentId) = true
      · rw [if_pos hc]
        simp only [List.map_cons]
        apply List.nodup_cons.mpr
        refine ⟨?_, hnd2⟩
        intro hmem
        rcases List.mem_map.mp hmem with ⟨x, hx, hxo⟩
        have hxid : x.document_id ≠ documentId := by
          intro hh
          apply hid1
          have : a.document_id = documentId := by simpa using hc
          rw [this, ← hh]
          exact List.mem_map.mpr ⟨x, hx, rfl⟩
        exact hz x (List.mem_cons_of_mem _ hx) hxid hxo
      · rw [if_neg hc]
        simp only [List.map_cons]
        apply List.nodup_cons.mpr
        constructor
        · intro hmem
          rcases List.mem_map.mp hmem with ⟨x, hx, hxo⟩
          rcases promoteFirst_order_mem documentId rest x hx with h0 | h0
          · have haid : a.document_id ≠ documentId := by simpa using hc
            exact hz a (List.mem_cons_self _ _) haid (by rw [← hxo, h0])
          · apply hnd1
            rw [hxo] at h0
            exact h0
        · exact ih hnd2 hid2 (fun it hit hne => hz it (List.mem_cons_of_mem _ hit) hne)

theorem demote_map_order (l : List DocumentSetItem) :
    (demotePrimaries l).map (fun it => it.order) = l.map (fun it => it.order) := by
  unfold demotePrimaries
  rw [List.map_map]
  apply List.map_congr_left
  intro it hit
  by_cases h : (it.role == "primary") = true <;> simp [Function.comp, h]

theorem demote_map_docid (l : List DocumentSetItem) :
    (demotePrimaries l).map (fun it => it.document_id) = l.map (fun it => it.document_id) := by
  unfold demotePrimaries
  rw [List.map_map]
  apply List.map_congr_left
  intro it hit
  by_cases h : (it.role == "primary") = true <;> simp [Function.comp, h]

theorem promoteFirst_mem_primary (documentId : String) (l : List DocumentSetItem)
    (hex : ∃ it ∈ l, it.document_id = documentId) :
    ∃ it ∈ promoteFirst documentId l, it.role = "primary" := by
  induction l with
  | nil =>
      rcases hex with ⟨x, hx, _⟩
      cases hx
  | cons a rest ih =>
      simp only [promoteFirst]
      by_cases hc : (a.document_id == documentId) = true
      · rw [if_pos hc]
        exact ⟨_, List.mem_cons_self _ _, rfl⟩
      · rw [if_neg hc]
        rcases hex with ⟨x, hx, hxid⟩
        rcases List.mem_cons.mp hx with h1 | h1
        · exfalso
          apply hc
          rw [h1] at hxid
          simp [hxid]
        · rcases ih ⟨x, h1, hxid⟩ with ⟨y, hy, hyrole⟩
          exact ⟨y, List.mem_cons_of_mem _ hy, hyrole⟩

theorem sorted_head_primary (s : List DocumentSetItem)
    (hsort : List.Pairwise primaryLe s)
    (hex : ∃ it ∈ s, it.role = "primary") :
    ∀ h0, s.head? = some h0 → h0.role = "primary" := by
  intro h0 hh0
  cases s with
  | nil => cases hh0
  | cons a t =>
      have ha : a = h0 := by simpa using hh0
      subst ha
      by_cases hr : a.role = "primary"
      · exact hr
      · exfalso
        rcases hex with ⟨x, hx, hxrole⟩
        rcases List.mem_cons.mp hx with h1 | h1
        · exact hr (h1 ▸ hxrole)
        · have hle : primaryLe a x := (List.pairwise_cons.mp hsort).1 x h1
          have hka : primaryKey a = 1 := by simp [primaryKey, hr]
          have hkx : primaryKey x = 0 := by simp [primaryKey, hxrole]
          rcases hle with h | ⟨h, _⟩ <;> omega

/-- C4 counterexample: on a set with orders `{0, 1}` and no explicit
primary, promoting the order-1 document assigns it order 0 unconditionally,
leaving two items with order 0 — `set_primary_document` does NOT preserve
the order-uniqueness invariant. -/
theorem set_primary_document_counterexample :
    distinctOrders c4ds ∧ ¬distinctOrders (set_primary_document c4ds "b4") :=
  ⟨by decide, by decide⟩

/-- C4 (amended): `add_item` always re-establishes pairwise-distinct orders;
`set_primary_document` demotes the previous primary, promotes the target
with order 0 and re-sorts the primary item to the front, and it preserves
pairwise-distinct orders only under the additional assumption that no item
other than the target already holds order 0 (document ids assumed unique). -/
theorem order_uniqueness_amended (ds : DocumentSet) (item : DocumentSetItem)
    (documentId : String) :
    (distinctOrders ds → distinctOrders (ds.add_item item))
    ∧ (distinctOrders ds →
        (ds.items.map (fun it => it.document_id)).Nodup →
        (∀ it ∈ ds.items, it.document_id ≠ documentId → it.order ≠ 0) →
        distinctOrders (set_primary_document ds documentId))
    ∧ ((∃ it ∈ ds.items, it.document_id = documentId) →
        ∀ h0, (set_primary_document ds documentId).items.head? = some h0 →
          h0.role = "primary") := by
  refine ⟨?_, ?_, ?_⟩
  · intro hd
    unfold distinctOrders at hd
    unfold distinctOrders DocumentSet.add_item
    apply (List.Perm.nodup_iff (List.Perm.map _ (List.perm_insertionSort _ _))).mpr
    rw [List.map_append]
    apply List.Nodup.append hd (by simp)
    intro x hx hx2
    simp only [List.map_cons, List.map_nil, List.mem_singleton] at hx2
    obtain ⟨h1, _, _⟩ := findFreeOrder_spec (ds.items.map (fun i => i.order)) item.order
    rw [hx2] at hx
    exact h1 hx
  · intro hd hids hz
    unfold distinctOrders at hd
    unfold distinctOrders set_primary_document
    cases hfind : ds.get_item_by_doc_id documentId with
    | none => exact hd
    | some it0 =>
        apply (List.Perm.nodup_iff (List.Perm.map _ (List.perm_insertionSort _ _))).mpr
        apply promoteFirst_nodup_orders
        · rw [demote_map_order]
          exact hd
        · rw [demote_map_docid]
          exact hids
        · intro it hit hne
          rcases List.mem_map.mp (show it ∈ ds.items.map
              (fun i => if (i.role == "primary") = true then { i with role := "auxiliary" } else i)
              from hit) with ⟨x, hx, hfx⟩
          have hxid : x.document_id ≠ documentId := by
            intro hh
            apply hne
            rw [← hfx]
            by_cases h : (x.role == "primary") = true <;> simp [h, hh]
          have hxo := hz x hx hxid
          intro hh
          apply hxo
          rw [← hfx] at hh
          by_cases h : (x.role == "primary") = true <;> simpa [h] using hh
  · intro hex h0 hh0
    have hfs : (ds.items.find? (fun it => it.document_id == documentId)).isSome := by
      rcases hex with ⟨x, hx, hxid⟩
      exact List.find?_isSome.mpr ⟨x, hx, by simp [hxid]⟩
    unfold set_primary_document at hh0
    cases hfind : ds.get_item_by_doc_id documentId with
    | none =>
        unfold DocumentSet.get_item_by_doc_id at hfind
        rw [hfind] at hfs
        cases hfs
    | some it0 =>
        rw [hfind] at hh0
        apply sorted_head_primary _ ?_ ?_ h0 hh0
        · exact List.sorted_insertionSort primaryLe _
        · have hex' : ∃ it ∈ demotePrimaries ds.items, it.document_id = documentId := by
            rcases hex with ⟨x, hx, hxid⟩
            refine ⟨if (x.role == "primary") = true then { x with role := "auxiliary" } else x, ?_, ?_⟩
            · unfold demotePrimaries
              exact List.mem_map.mpr ⟨x, hx, rfl⟩
            · by_cases h : (x.role == "primary") = true <;> simp [h, hxid]
          rcases promoteFirst_mem_primary documentId (demotePrimaries ds.items) hex' with ⟨y, hy, hyr⟩
          refine ⟨y, ?_, hyr⟩
          exact (List.perm_insertionSort primaryLe _).mem_iff.mpr hy

/-- C4 witness: when no item other than the target holds order 0, the
promotion preserves distinct orders. -/
theorem order_uniqueness_amended_witness :
    distinctOrders (set_primary_document c4wds "b4") :=
  (order_uniqueness_amended c4wds c10item "b4").2.1 (by decide) (by decide) (by decide)

/-- C10: `add_item` stores the given item with only its `order` field
changed — raised to the least free value at or above the requested order —
appends it to the otherwise untouched items (the final re-sort permutes but
does not modify them), and touches nothing else. -/
theorem add_item_frame (ds : DocumentSet) (item : DocumentSetItem) :
    List.Perm (ds.add_item item).items
      ({ item with order := findFreeOrder (ds.items.map (fun i => i.order)) item.order } :: ds.items)
    ∧ findFreeOrder (ds.items.map (fun i => i.order)) item.order ∉ ds.items.map (fun i => i.order)
    ∧ item.order ≤ findFreeOrder (ds.items.map (fun i => i.order)) item.order
    ∧ (∀ k : Int, item.order ≤ k →
        k < findFreeOrder (ds.items.map (fun i => i.order)) item.order →
        k ∈ ds.items.map (fun i => i.order)) := by
  obtain ⟨h1, h2, h3⟩ := findFreeOrder_spec (ds.items.map (fun i => i.order)) item.order
  refine ⟨?_, h1, h2, h3⟩
  unfold DocumentSet.add_item
  exact (List.perm_insertionSort _ _).trans (List.perm_append_singleton _ _)

/-- C10 witness: on orders `{0, 1}` a request for order 0 is stored as
order 2, the other fields and the existing items untouched. -/
theorem add_item_frame_witness :
    findFreeOrder (c10ds.items.map (fun i => i.order)) c10item.order = 2
    ∧ List.Perm (c10ds.add_item c10item).items ({ c10item with order := 2 } :: c10ds.items) := by
  refine ⟨by decide, ?_⟩
  have h := (add_item_frame c10ds c10item).1
  simpa using h

/-- C6 witness: three queried items, the endpoint failing on the second —
three segments, the failure rendered inline, the successes intact. -/
theorem query_document_set_partial_failure_witness :
    (queryResults c6resp [c6A, c6B, c6C]).length = 3
    ∧ (queryResults c6resp [c6A, c6B, c6C])[1]? = some "[文档B] 查询失败: 连接超时"
    ∧ (queryResults c6resp [c6A, c6B, c6C])[0]?
        = some "[文档A] 来自文档A的答案\n  来源: 文档A第一章" := by
  have h := query_document_set_partial_failure c6ds "测试查询" "all" "" c6resp
    [c6A, c6B, c6C] (by decide) (by decide)
  refine ⟨by simpa using h.2.1, ?_, ?_⟩
  · have h1 := h.2.2.1 1 c6B "连接超时" (by decide) rfl
    simpa using h1
  · have h0 := h.2.2.2 0 c6A ⟨some "来自文档A的答案", [some "文档A第一章"]⟩ (by decide) rfl
    simpa [renderSources] using h0
